import Mathlib

/-!
Verification of the nsf2wav conversion program (an NSF/NSFe to WAV demo
application).  The definitions below are a shallow embedding of the program's
functions: the little-endian byte packers, the WAV header writer, the frame
encoder, the channel-mask accumulation performed by option parsing, the
length/fade resolution, the loop-detection skip phase, the per-channel volume
table, and the render/write loop.  Machine integers are modelled as `Nat`/`Int`
with explicit reductions modulo powers of two where the C types truncate.
-/

namespace Nsf2Wav

/-- `kFramesToBuffer` from the source: maximum chunk size of the render and
skip loops, and the capacity (in frames) of the sample and byte buffers. -/
def kFramesToBuffer : Nat := 4096

/-- `EXIT_SUCCESS` from `<stdlib.h>`. -/
def EXIT_SUCCESS : Nat := 0

/-- `EXIT_FAILURE` from `<stdlib.h>`: the general failure exit code. -/
def EXIT_FAILURE : Nat := 1

/-- `EX_USAGE` from `<sysexits.h>`: the usage-error exit code passed to
`Usage(stderr, EX_USAGE, nsf)`. -/
def EX_USAGE : Nat := 64

/-! ## Channel-mask accumulation (`ParseOptions`)

`options.mask` and `options.mute` are `uint64_t` fields.  The `-m` handler
executes `options.mask |= 1<<std::stoi(optarg)`, the `-r` handler
`options.mask ^= 0xFFFFFFFF`, and the `-u` handler
`options.mute = options.mask; options.mask = 0;`. -/

/-- Models `(uint64_t)(1 << i)` for `0 ≤ i < 32`, where `1` has type `int`
(32-bit): for `i < 31` the shift yields `2^i`; for `i = 31` the `int` result is
`-2^31` (two's complement), which sign-extends to `2^64 - 2^31` when converted
to `uint64_t`. -/
def shl1_u64 (i : Nat) : Nat :=
  if i < 31 then 2 ^ i else 2 ^ 64 - 2 ^ 31

/-- The `-m, --mask` directive: `options.mask |= 1<<std::stoi(optarg)`. -/
def maskSelect (mask : Nat) (i : Nat) : Nat :=
  mask ||| shl1_u64 i

/-- The `-r, --mask_reverse` directive: `options.mask ^= 0xFFFFFFFF`. -/
def maskInvert (mask : Nat) : Nat :=
  mask ^^^ 0xFFFFFFFF

/-- The `-u, --mute` directive: `options.mute = options.mask;
options.mask = 0;`.  Returns the new `(mask, mute)` pair. -/
def maskCommit (mask : Nat) : Nat × Nat :=
  (0, mask)

/-! ## Little-endian byte packing -/

/-- Two's-complement 16-bit image of an `int16_t` value. -/
def toU16 (n : Int) : Nat :=
  (n % 65536).toNat

/-- `pack_int16le`: `d[0] = (uint8_t)n; d[1] = (uint8_t)(n >> 8);` for an
`int16_t` argument `n` (for in-range `n` these are the two bytes of the
two's-complement representation, low byte first). -/
def pack_int16le (n : Int) : List Nat :=
  [toU16 n % 256, toU16 n / 256 % 256]

/-- `pack_uint16le`: `d[0] = (uint8_t)n; d[1] = (uint8_t)(n >> 8);`. -/
def pack_uint16le (n : Nat) : List Nat :=
  [n % 256, n / 256 % 256]

/-- `pack_uint32le`: the four bytes of `n`, low byte first. -/
def pack_uint32le (n : Nat) : List Nat :=
  [n % 256, n / 256 % 256, n / 65536 % 256, n / 16777216 % 256]

/-- Value of a 4-byte little-endian field (reader used to state properties of
the emitted header). -/
def unpack_uint32le (b : List Nat) : Nat :=
  b.getD 0 0 + 256 * b.getD 1 0 + 65536 * b.getD 2 0 + 16777216 * b.getD 3 0

/-- Decodes two bytes as a little-endian two's-complement 16-bit sample. -/
def unpack_int16le (b0 b1 : Nat) : Int :=
  let u := b0 % 256 + 256 * (b1 % 256)
  if u < 32768 then (u : Int) else (u : Int) - 65536

/-- Decodes a little-endian byte stream, two bytes per sample. -/
def unpack_frames : List Nat → List Int
  | b0 :: b1 :: rest => unpack_int16le b0 b1 :: unpack_frames rest
  | _ => []

/-! ## WAV header (`write_wav_header`)

`dataSize` has type `unsigned int` (32 bits), so
`totalFrames * sizeof(int16_t) * options.channels` is reduced modulo `2^32`.
The function emits, in order: `"RIFF"`, `dataSize + 44 - 8`, `"WAVE"`,
`"fmt "`, the 16-byte PCM format block, `"data"`, and `dataSize`.  The model
returns the emitted bytes (the success case; each `fwrite` short-write check
aborts emission, which the byte-level claims do not concern). -/
def write_wav_header (totalFrames : Nat) (channels : Nat) (samplerate : Nat) :
    List Nat :=
  let dataSize := totalFrames * 2 * channels % 4294967296
  [0x52, 0x49, 0x46, 0x46]            -- "RIFF"
    ++ pack_uint32le (dataSize + 44 - 8)
    ++ [0x57, 0x41, 0x56, 0x45]       -- "WAVE"
    ++ [0x66, 0x6d, 0x74, 0x20]       -- "fmt "
    ++ pack_uint32le 16               -- fmtSize
    ++ pack_uint16le 1                -- audioFormat
    ++ pack_uint16le channels         -- numChannels
    ++ pack_uint32le samplerate
    ++ pack_uint32le (samplerate * channels * 2)  -- byte rate
    ++ pack_uint16le (channels * 2)   -- block alignment
    ++ pack_uint16le 16               -- bits per sample
    ++ [0x64, 0x61, 0x74, 0x61]       -- "data"
    ++ pack_uint32le dataSize

/-! ## Frame encoder (`pack_frames`)

The source iterates `i` from `0` to `frameCount - 1`, packs sample
`s[i*channels + 0]`, additionally `s[i*channels + 1]` when `channels == 2`,
and advances the output pointer by `2 * channels` bytes.  The model consumes
`channels` samples per frame from the front of the list (the same access
pattern, expressed by structural recursion). -/
def pack_frames (s : List Int) (frameCount : Nat) (channels : Nat) : List Nat :=
  match frameCount with
  | 0 => []
  | fc + 1 =>
    pack_int16le (s.getD 0 0)
      ++ (if channels = 2 then pack_int16le (s.getD 1 0) else [])
      ++ pack_frames (s.drop channels) fc channels

/-- `write_frames`: `fwrite(d, sizeof(int16_t) * channels, frameCount, f)
== frameCount` — the payload write succeeds exactly when the sink accepted
every requested item; a short write yields `false` (failure). -/
def write_frames (itemsWritten : Nat) (frameCount : Nat) : Bool :=
  itemsWritten == frameCount

/-! ## Per-channel volume table

`main` runs `for (int i = 0; i < 32; i++) { uint64_t mask = 1<<i;
config.GetChannelConfig(i, "VOL") = (options.mute&mask)?0:128; }`. -/

/-- Volume configured for channel `i` given the committed mute bitset. -/
def volVOL (mute : Nat) (i : Nat) : Nat :=
  if mute &&& shl1_u64 i ≠ 0 then 0 else 128

/-! ## Entry sequencing (`main`, up to track-index resolution)

After option parsing, `main` checks the argument count (usage exit `EX_USAGE`
via `Usage`), loads the NSF file (exit `1` on failure), and only then — on the
conversion path — validates the track index: in playlist mode `nsf.song` is
used and `--track` ignored, otherwise `options.track <= 0` prints an error and
returns `EXIT_FAILURE`. -/

inductive PreStep where
  | argcCheck
  | loadFile
  | trackCheck
  deriving DecidableEq

inductive MainRes where
  | exit (code : Nat)
  | songIndex (i : Nat)
  deriving DecidableEq

/-- The steps `main` performs before track-index validation, with their order,
and the outcome: the exit code, or the zero-based engine song index the
conversion continues with. -/
def mainEntrySteps (argcOk : Bool) (loadOk : Bool) (playlistMode : Bool)
    (song : Nat) (track : Int) : List PreStep × MainRes :=
  if ¬argcOk then ([.argcCheck], .exit EX_USAGE)
  else if ¬loadOk then ([.argcCheck, .loadFile], .exit EXIT_FAILURE)
  else if playlistMode then
    ([.argcCheck, .loadFile, .trackCheck], .songIndex song)
  else if track ≤ 0 then
    ([.argcCheck, .loadFile, .trackCheck], .exit EXIT_FAILURE)
  else
    ([.argcCheck, .loadFile, .trackCheck], .songIndex (track - 1).toNat)

/-! ## Length/fade resolution

```
if (!nsf.playlist_mode && nsf.nsfe_entry[nsfe_i].time >= 0)
    options.length_ms = nsf.nsfe_entry[nsfe_i].time;
else if (nsf.time_in_ms >= 0) options.length_ms = nsf.time_in_ms;
else if (!options.lengthForce) fprintf(stderr, "Warning: ...");
```
and the analogous block for `fade_ms`, whose warning branch is not guarded by
`lengthForce`.  Results are the resolved value together with whether the
warning was printed. -/

/-- Resolution of `options.length_ms` (value, warning emitted). -/
def resolveLength (playlistMode : Bool) (nsfeTime : Int) (timeInMs : Int)
    (cur : Int) (lengthForce : Bool) : Int × Bool :=
  if ¬playlistMode ∧ nsfeTime ≥ 0 then (nsfeTime, false)
  else if timeInMs ≥ 0 then (timeInMs, false)
  else if ¬lengthForce then (cur, true)
  else (cur, false)

/-- Resolution of `options.fade_ms` (value, warning emitted). -/
def resolveFade (playlistMode : Bool) (nsfeFade : Int) (fadeInMs : Int)
    (cur : Int) : Int × Bool :=
  if ¬playlistMode ∧ nsfeFade ≥ 0 then (nsfeFade, false)
  else if fadeInMs ≥ 0 then (fadeInMs, false)
  else (cur, true)

/-- Modelled from the spec's precedence words (for comparison with
`resolveLength`/`resolveFade`): "per-track embedded value if present and
non-negative, else source-level global value if present and non-negative,
else the built-in default" — with no playlist-mode condition. -/
def claimPrecedence (embedded : Int) (global : Int) (cur : Int) : Int :=
  if embedded ≥ 0 then embedded
  else if global ≥ 0 then global
  else cur

/-- The spec's precedence amended with the source's playlist-mode guard: the
per-track embedded value participates only when the source is not in playlist
mode. -/
def amendedPrecedence (playlistMode : Bool) (embedded : Int) (global : Int)
    (cur : Int) : Int :=
  if ¬playlistMode ∧ embedded ≥ 0 then embedded
  else if global ≥ 0 then global
  else cur

/-! ## Loop detection

When `options.lengthForce` is unset, `main` runs
```
while(frames && !player.fader.IsFading()) {
    fc = std::min(frames, kFramesToBuffer);
    player.Skip(fc);
    frames -= fc;
}
if (player.playtime_detected) {
    frames = player.total_render
           + ((uint64_t)nsf.GetFadeTime()*options.samplerate/kMillisPerSecond);
} else frames = framesbackup;
```
The engine is abstracted as a state type with the observables the loop
consults; the sample rate is modelled as a natural number. -/

structure EngineIface (σ : Type) where
  skip : Nat → σ → σ
  isFading : σ → Bool
  playtimeDetected : σ → Bool
  totalRender : σ → Nat
  fadeTimeMs : σ → Nat

/-- The skip loop: chunks of at most `kFramesToBuffer` frames until the budget
is exhausted or the engine reports fading. -/
def skipLoop {σ : Type} (E : EngineIface σ) (frames : Nat) (s : σ) : σ :=
  if _h : frames = 0 then s
  else if E.isFading s then s
  else
    skipLoop E (frames - min frames kFramesToBuffer)
      (E.skip (min frames kFramesToBuffer) s)
termination_by frames
decreasing_by
  simp only [kFramesToBuffer]
  omega

/-- The post-loop recomputation: when the engine reports a detected playtime,
the frame count becomes `total_render + fadeTime * samplerate / 1000`,
discarding the naive budget `F`; otherwise the backup `F` is restored. -/
def resolveFrames {σ : Type} (E : EngineIface σ) (s0 : σ) (F : Nat)
    (samplerate : Nat) : Nat :=
  let s := skipLoop E F s0
  if E.playtimeDetected s then
    E.totalRender s + E.fadeTimeMs s * samplerate / 1000
  else F

/-- The naive frame-count candidate:
`frames = (uint64_t)length_ms * samplerate; frames += (uint64_t)fade_ms *
samplerate; frames /= 1000;`. -/
def naiveFrames (length_ms fade_ms samplerate : Nat) : Nat :=
  (length_ms * samplerate + fade_ms * samplerate) / 1000

/-- The final resolved total frame count: the naive candidate when
`lengthForce` is set, otherwise the outcome of the detection pass. -/
def totalFrames {σ : Type} (E : EngineIface σ) (s0 : σ) (lengthForce : Bool)
    (length_ms fade_ms samplerate : Nat) : Nat :=
  if lengthForce then naiveFrames length_ms fade_ms samplerate
  else resolveFrames E s0 (naiveFrames length_ms fade_ms samplerate) samplerate

/-- A simulated engine over state `Nat` (frames skipped so far): fading is
signalled exactly once `K` frames have been skipped, loop detection always
reports success with `total_frames_rendered = K` and
`detected_fade_time_ms = T`. -/
def simEngine (K T : Nat) : EngineIface Nat :=
  ⟨fun n s => s + n, fun s => K ≤ s, fun _ => true, fun _ => K, fun _ => T⟩

/-! ## Render/write loop

```
while(frames) {
    fc = std::min(frames, kFramesToBuffer);
    player.Render(buf.get(), fc);
    pack_frames(pac.get(), buf.get(), fc, options.channels);
    write_frames(f, pac.get(), fc, options.channels);
    frames -= fc;
}
fclose(f);
return EXIT_SUCCESS;
```
`accept idx fc` gives the number of items the sink accepts for write call
`idx` when `fc` items are requested.  Each chunk consumes at least one frame,
so a fuel of `frames` suffices; the model records the (discarded) result of
every `write_frames` call and the final exit code. -/

def renderLoopFuel (accept : Nat → Nat → Nat) :
    Nat → Nat → Nat → List Bool
  | 0, _, _ => []
  | fuel + 1, frames, callIdx =>
    if frames = 0 then []
    else
      let fc := min frames kFramesToBuffer
      write_frames (accept callIdx fc) fc
        :: renderLoopFuel accept fuel (frames - fc) (callIdx + 1)

/-- The render loop of `main`: the list of `write_frames` results (which the
source ignores) and the process exit code, reached regardless of those
results.  Every iteration removes `min frames kFramesToBuffer` frames, so the
loop performs at most `frames / kFramesToBuffer + 1` write calls; that number
is supplied as fuel. -/
def renderLoopModel (accept : Nat → Nat → Nat) (frames : Nat) :
    List Bool × Nat :=
  (renderLoopFuel accept (frames / kFramesToBuffer + 1) frames 0, EXIT_SUCCESS)

/-! ## Helper lemmas -/

/-- Packing then unpacking one in-range 16-bit sample is the identity. -/
theorem unpack_pack_int16 (n : Int) (h1 : -32768 ≤ n) (h2 : n < 32768) :
    unpack_int16le (toU16 n % 256) (toU16 n / 256 % 256) = n := by
  simp only [unpack_int16le, toU16]
  split <;> omega

/-- `getD` below `n` is determined by the first `n` elements. -/
theorem getD_of_take_eq {s s' : List Int} {n i : Nat}
    (h : s.take n = s'.take n) (hi : i < n) : s.getD i 0 = s'.getD i 0 := by
  rw [List.getD_eq_getElem?_getD, List.getD_eq_getElem?_getD]
  have h1 : (s.take n)[i]? = (s'.take n)[i]? := by rw [h]
  rw [List.getElem?_take, List.getElem?_take, if_pos hi, if_pos hi] at h1
  rw [h1]

/-- Unfolding equation of `pack_frames` at a positive frame count. -/
theorem pack_frames_succ (s : List Int) (k ch : Nat) :
    pack_frames s (k + 1) ch =
      pack_int16le (s.getD 0 0)
        ++ (if ch = 2 then pack_int16le (s.getD 1 0) else [])
        ++ pack_frames (s.drop ch) k ch := rfl

/-- The encoder emits two bytes per sample per channel. -/
theorem pack_frames_length (s : List Int) (fc ch : Nat)
    (hch : ch = 1 ∨ ch = 2) :
    (pack_frames s fc ch).length = fc * ch * 2 := by
  induction fc generalizing s with
  | zero => simp [pack_frames]
  | succ k ih =>
    rw [pack_frames_succ]
    rcases hch with h | h <;> subst h <;>
      simp [pack_int16le, ih] <;> omega

/-- The encoder reads only the first `fc * ch` input samples. -/
theorem pack_frames_take_eq (fc ch : Nat) (hch : ch = 1 ∨ ch = 2) :
    ∀ s s' : List Int, s.take (fc * ch) = s'.take (fc * ch) →
      pack_frames s fc ch = pack_frames s' fc ch := by
  induction fc with
  | zero => intro s s' _; rfl
  | succ k ih =>
    intro s s' h
    rcases hch with hc | hc <;> subst hc
    · have h0 : s.getD 0 0 = s'.getD 0 0 := getD_of_take_eq h (by omega)
      have hd : (s.drop 1).take (k * 1) = (s'.drop 1).take (k * 1) := by
        have h2 := congrArg (List.drop 1) h
        rw [List.drop_take, List.drop_take] at h2
        have h3 : (k + 1) * 1 - 1 = k * 1 := by omega
        rwa [h3] at h2
      rw [pack_frames_succ, pack_frames_succ, h0, ih _ _ hd]
      simp
    · have h0 : s.getD 0 0 = s'.getD 0 0 := getD_of_take_eq h (by omega)
      have h1 : s.getD 1 0 = s'.getD 1 0 := getD_of_take_eq h (by omega)
      have hd : (s.drop 2).take (k * 2) = (s'.drop 2).take (k * 2) := by
        have h2 := congrArg (List.drop 2) h
        rw [List.drop_take, List.drop_take] at h2
        have h3 : (k + 1) * 2 - 2 = k * 2 := by omega
        rwa [h3] at h2
      rw [pack_frames_succ, pack_frames_succ, h0, h1, ih _ _ hd]

/-- Decoding a packed in-range sample at the head of a byte stream. -/
theorem unpack_frames_cons (n : Int) (rest : List Nat)
    (h1 : -32768 ≤ n) (h2 : n < 32768) :
    unpack_frames (pack_int16le n ++ rest) = n :: unpack_frames rest := by
  show unpack_int16le (toU16 n % 256) (toU16 n / 256 % 256)
      :: unpack_frames rest = n :: unpack_frames rest
  rw [unpack_pack_int16 n h1 h2]

/-! ## The claims -/

/-- C1: when `force_length` is false and the engine (simulated here: fading
signalled exactly after `K` skipped frames, loop detection reported successful
with `total_frames_rendered = K` and `detected_fade_time_ms = T`) detects the
loop, the final resolved frame count is `K + T * samplerate / 1000`,
discarding the naive candidate built from `length_ms`/`fade_ms`. -/
theorem c1_loop_detection (K T length_ms fade_ms samplerate : Nat) :
    totalFrames (simEngine K T) 0 false length_ms fade_ms samplerate
      = K + T * samplerate / 1000 := rfl

/-- C2 counterexample: after `select(0); invert()` from an empty working mask
the mask is `0xFFFFFFFE`, not the full-width (64-bit) complement of `{0}`,
because `-r` XORs with the 32-bit constant `0xFFFFFFFF`. -/
theorem c2_counterexample :
    maskInvert (maskSelect 0 0) = 4294967294 ∧
      maskInvert (maskSelect 0 0) ≠ 2 ^ 64 - 2 := by
  decide

/-- C2 amended: the invert directive complements exactly the low 32 bits of
the working mask and leaves bits 32 and above unchanged (so from an empty
mask, `select(0); invert()` yields the 32-bit complement of `{0}`). -/
theorem c2_invert_low32 (m j : Nat) :
    (maskInvert m).testBit j
      = if j < 32 then !(m.testBit j) else m.testBit j := by
  have h32 : (0xFFFFFFFF : Nat) = 2 ^ 32 - 1 := by norm_num
  unfold maskInvert
  rw [h32, Nat.testBit_xor, Nat.testBit_two_pow_sub_one]
  by_cases hj : j < 32 <;> simp [hj]

/-- C3: `write_frames` does flag a short write as failure (`false`), but
`main` discards that result: with a sink that accepts nothing, the render loop
still performs the second write call and the process exit code is
`EXIT_SUCCESS`, contrary to the specified report-and-abort behaviour. -/
theorem c3_short_write_continues :
    renderLoopModel (fun _ _ => 0) 4097 = ([false, false], EXIT_SUCCESS) ∧
      write_frames 0 4096 = false := by
  decide

/-- C4: with `force_length` set the resolved total frame count is exactly
`(length_ms + fade_ms) * samplerate / 1000` (floor), for every engine. -/
theorem c4_force_length (σ : Type) (E : EngineIface σ) (s0 : σ)
    (length_ms fade_ms samplerate : Nat) :
    totalFrames E s0 true length_ms fade_ms samplerate
      = (length_ms + fade_ms) * samplerate / 1000 := by
  simp [totalFrames, naiveFrames, Nat.add_mul]

/-- C5 counterexample: `dataSize` is a 32-bit `unsigned int`, so for
`totalFrames = 2^31` and one channel the payload-length field wraps to `0`
instead of `2^31 * 1 * 2`. -/
theorem c5_counterexample :
    unpack_uint32le ((write_wav_header (2 ^ 31) 1 48000).drop 40) = 0 ∧
      2 ^ 31 * 1 * 2 ≠ 0 := by
  decide

/-- C5 amended: the header is always exactly 44 bytes, and the payload-length
field holds `totalFrames * channels * 2` reduced modulo `2^32` (hence the
product itself whenever it fits in 32 bits). -/
theorem c5_header_layout (t c r : Nat) :
    (write_wav_header t c r).length = 44 ∧
      unpack_uint32le ((write_wav_header t c r).drop 40)
        = t * c * 2 % 2 ^ 32 := by
  constructor
  · rfl
  · have hdrop : (write_wav_header t c r).drop 40
        = pack_uint32le (t * 2 * c % 4294967296) := rfl
    rw [hdrop]
    show t * 2 * c % 4294967296 % 256
        + 256 * (t * 2 * c % 4294967296 / 256 % 256)
        + 65536 * (t * 2 * c % 4294967296 / 65536 % 256)
        + 16777216 * (t * 2 * c % 4294967296 / 16777216 % 256)
      = t * c * 2 % 2 ^ 32
    have h2 : t * 2 * c = t * c * 2 := by ring
    rw [h2]
    generalize t * c * 2 = n
    omega

/-- C6: decoding the encoder's bytes reproduces the original 16-bit sample
sequence, for mono and stereo framing. -/
theorem c6_round_trip (frameCount : Nat) (channels : Nat) (s : List Int)
    (hch : channels = 1 ∨ channels = 2)
    (hlen : s.length = frameCount * channels)
    (hrange : ∀ x ∈ s, -32768 ≤ x ∧ x < 32768) :
    unpack_frames (pack_frames s frameCount channels) = s := by
  induction frameCount generalizing s with
  | zero =>
    have hnil : s = [] := List.eq_nil_of_length_eq_zero (by omega)
    subst hnil; rfl
  | succ k ih =>
    rcases hch with hc | hc <;> subst hc
    · cases s with
      | nil => exact absurd (show (0 : Nat) = (k + 1) * 1 from hlen) (by omega)
      | cons a t =>
        have ha := hrange a (by simp)
        have hrt : ∀ x ∈ t, -32768 ≤ x ∧ x < 32768 :=
          fun x hx => hrange x (by simp [hx])
        have hlt : t.length = k * 1 := by simp at hlen; omega
        rw [pack_frames_succ]
        simp only [if_neg (by decide : ¬(1 = 2)), List.nil_append]
        show unpack_frames (pack_int16le a ++ pack_frames t k 1) = a :: t
        rw [unpack_frames_cons a _ ha.1 ha.2, ih t hlt hrt]
    · cases s with
      | nil => exact absurd (show (0 : Nat) = (k + 1) * 2 from hlen) (by omega)
      | cons a t1 =>
        cases t1 with
        | nil =>
          exact absurd (show (1 : Nat) = (k + 1) * 2 from hlen) (by omega)
        | cons b t =>
          have ha := hrange a (by simp)
          have hb := hrange b (by simp)
          have hrt : ∀ x ∈ t, -32768 ≤ x ∧ x < 32768 :=
            fun x hx => hrange x (by simp [hx])
          have hlt : t.length = k * 2 := by simp at hlen; omega
          rw [pack_frames_succ]
          simp only [if_pos rfl]
          show unpack_frames
              (pack_int16le a ++ (pack_int16le b ++ pack_frames t k 2))
            = a :: b :: t
          rw [unpack_frames_cons a _ ha.1 ha.2,
            unpack_frames_cons b _ hb.1 hb.2, ih t hlt hrt]

/-- C6 witness: a concrete stereo round trip. -/
theorem c6_witness :
    unpack_frames (pack_frames [(1 : Int), -2, 300, -32768] 2 2)
      = [(1 : Int), -2, 300, -32768] :=
  c6_round_trip 2 2 [(1 : Int), -2, 300, -32768] (Or.inr rfl) (by decide)
    (by decide)

/-- C7 counterexample: with valid arguments, a loadable non-playlist source
and track index `0`, the failure exit code is `EXIT_FAILURE` (the general
failure code, not the usage code `EX_USAGE`), and the input file has already
been loaded when the check runs. -/
theorem c7_counterexample :
    (mainEntrySteps true true false 0 0).2 = .exit EXIT_FAILURE ∧
      PreStep.loadFile ∈ (mainEntrySteps true true false 0 0).1 ∧
      EXIT_FAILURE ≠ EX_USAGE := by
  decide

/-- C7 amended: a non-playlist track index `≤ 0` makes `main` return the
general failure code `EXIT_FAILURE`, and the check runs only after the source
file has been loaded (argument-count and flag errors, by contrast, exit with
`EX_USAGE` before any file access). -/
theorem c7_track_check (song : Nat) (track : Int) (h : track ≤ 0) :
    mainEntrySteps true true false song track
      = ([.argcCheck, .loadFile, .trackCheck], .exit EXIT_FAILURE) := by
  simp [mainEntrySteps, h]

/-- C7 witness: the amended behaviour at track index `-5`. -/
theorem c7_witness :
    mainEntrySteps true true false 0 (-5)
      = ([.argcCheck, .loadFile, .trackCheck], .exit EXIT_FAILURE) :=
  c7_track_check 0 (-5) (by norm_num)

/-- C8 counterexample: in playlist mode the per-track embedded value is
skipped: with embedded time `5000` and global time `7000` the code resolves
`7000`, while the claim's precedence resolves `5000`. -/
theorem c8_counterexample :
    (resolveLength true 5000 7000 1 false).1 = 7000 ∧
      claimPrecedence 5000 7000 1 = 5000 ∧ (7000 : Int) ≠ 5000 := by
  decide

/-- C8 amended: the precedence holds with the per-track embedded value
restricted to non-playlist sources (embedded if `¬playlist ∧ ≥ 0`, else
global if `≥ 0`, else the current default), and when no override applies and
`force_length` is false a warning is emitted for both length and fade. -/
theorem c8_resolution (pm : Bool) (t g c : Int) (force : Bool)
    (tf gf cf : Int) :
    (resolveLength pm t g c force).1 = amendedPrecedence pm t g c ∧
      (resolveFade pm tf gf cf).1 = amendedPrecedence pm tf gf cf ∧
      ((pm = true ∨ t < 0) → g < 0 → force = false →
        (resolveLength pm t g c force).2 = true) ∧
      ((pm = true ∨ tf < 0) → gf < 0 →
        (resolveFade pm tf gf cf).2 = true) := by
  unfold resolveLength resolveFade amendedPrecedence
  rcases pm <;> rcases force <;> split_ifs <;> simp_all

/-- C8 witness: playlist mode with a negative global and `force_length`
unset falls back to the default with a warning, for length and fade. -/
theorem c8_witness :
    (resolveLength true 5 (-1) 100 false).2 = true ∧
      (resolveFade true 5 (-1) 100).2 = true :=
  ⟨(c8_resolution true 5 (-1) 100 false 5 (-1) 100).2.2.1 (Or.inl rfl)
      (by norm_num) rfl,
    (c8_resolution true 5 (-1) 100 false 5 (-1) 100).2.2.2 (Or.inl rfl)
      (by norm_num)⟩

/-- C9 counterexample: at channel 31 the `int`-typed shift `1 << 31`
sign-extends to `0xFFFFFFFF80000000`, so a mute bitset with only bit 63 set
silences channel 31 although bit 31 is clear. -/
theorem c9_counterexample :
    volVOL (2 ^ 63) 31 = 0 ∧ Nat.testBit (2 ^ 63) 31 = false := by
  decide

/-- C9 amended: for channels 0 through 30 the configured volume is `0`
exactly when the channel's bit is set in the committed mute bitset, and `128`
otherwise; channel 31's test involves the sign-extended shift and checks bits
31–63 jointly. -/
theorem c9_volume_table (mute i : Nat) (h : i ≤ 30) :
    volVOL mute i = 0 ↔ mute.testBit i := by
  have hs : shl1_u64 i = 2 ^ i := by
    unfold shl1_u64
    rw [if_pos (by omega)]
  unfold volVOL
  rw [hs, Nat.and_two_pow]
  have h2 : (2 : Nat) ^ i ≠ 0 := pow_ne_zero i (by norm_num)
  cases hb : mute.testBit i <;> simp [hb, h2]

/-- C9 witness: channel 1 with mute bitset `{1}` gets zero volume. -/
theorem c9_witness : volVOL 2 1 = 0 :=
  (c9_volume_table 2 1 (by norm_num)).mpr (by decide)

/-- C10: for mono and stereo the encoder emits exactly
`frameCount * channels * 2` bytes, reads only the first
`frameCount * channels` input samples, and for chunks of at most
`kFramesToBuffer` frames its output fits the once-allocated byte buffer of
`kFramesToBuffer * channels * 2` bytes (and its reads the sample buffer of
`kFramesToBuffer * channels` samples). -/
theorem c10_encoder_bounds (s : List Int) (frameCount channels : Nat)
    (hch : channels = 1 ∨ channels = 2) :
    (pack_frames s frameCount channels).length = frameCount * channels * 2 ∧
      (∀ s' : List Int,
        s.take (frameCount * channels) = s'.take (frameCount * channels) →
          pack_frames s frameCount channels
            = pack_frames s' frameCount channels) ∧
      (frameCount ≤ kFramesToBuffer →
        (pack_frames s frameCount channels).length
            ≤ kFramesToBuffer * channels * 2 ∧
          frameCount * channels ≤ kFramesToBuffer * channels) := by
  refine ⟨pack_frames_length s frameCount channels hch,
    fun s' h => pack_frames_take_eq frameCount channels hch s s' h,
    fun hfc => ⟨?_, ?_⟩⟩
  · rw [pack_frames_length s frameCount channels hch]
    rcases hch with h | h <;> subst h <;> simp [kFramesToBuffer] at hfc ⊢ <;>
      omega
  · rcases hch with h | h <;> subst h <;> simp [kFramesToBuffer] at hfc ⊢ <;>
      omega

/-- C10 witness: one stereo frame emits 4 bytes, within the buffer bound. -/
theorem c10_witness :
    (pack_frames [(5 : Int), -1] 1 2).length = 1 * 2 * 2 ∧
      (pack_frames [(5 : Int), -1] 1 2).length ≤ kFramesToBuffer * 2 * 2 :=
  ⟨(c10_encoder_bounds [(5 : Int), -1] 1 2 (Or.inr rfl)).1,
    ((c10_encoder_bounds [(5 : Int), -1] 1 2 (Or.inr rfl)).2.2
      (by norm_num [kFramesToBuffer])).1⟩

end Nsf2Wav
